import Mathlib

/-!
# Verification of the `os_server` reconciliation module

Shallow embedding of `src/cloud/openstack/os_server.py`: the module that
reconciles a single OpenStack compute instance (create / delete / floating-IP
convergence) against a declared desired state.  Pure Python functions become
Lean functions; control-plane calls are recorded in an explicit trace; the
external `shade` collaborator operations that the repository only calls
(`add_ips_to_server`, `add_ip_list`, `get_image_id`, `get_flavor_by_ram`,
`create_server`) are modelled from the specification at their interface
boundary, as marked on each definition.
-/

namespace OsServer

/-- Truthiness of an optional string parameter, as Python's `if net.get(k):`
sees it: absent or empty string is falsy. -/
def truthyStr : Option String → Bool
  | none => false
  | some s => !(s == "")

/-- Truthiness of an optional list parameter, as Python's
`if floating_ip_pools or floating_ips or ...` sees it. -/
def truthyList : Option (List String) → Bool
  | none => false
  | some l => !l.isEmpty

/-- `sub` occurs as a contiguous run inside `l`. -/
def listContainsSub (l sub : List Char) : Bool :=
  match l with
  | [] => sub.isEmpty
  | _ :: t => sub.isPrefixOf l || listContainsSub t sub

/-- Python's `sub in s` substring test. -/
def strContains (s sub : String) : Bool :=
  listContainsSub s.data sub.data

/-- One entry of a server's address map: `{addr, OS-EXT-IPS:type}` where the
type is `"fixed"` or `"floating"`. -/
structure Address where
  addr : String
  ipType : String
deriving DecidableEq, Repr

/-- Observed server record: identifier, name, raw status string and the
address map (network name → list of addresses). -/
structure Server where
  id : String
  name : String
  status : String
  addresses : List (String × List Address)
deriving DecidableEq, Repr

/-- Modelled from the spec: `openstack_find_nova_addresses(addresses, ext_tag)`
from `ansible.module_utils.openstack` (not under `src/`) collects the `addr`
of every address-map entry whose `OS-EXT-IPS:type` equals `ext_tag`. -/
def openstack_find_nova_addresses (addresses : List (String × List Address))
    (ext_tag : String) : List String :=
  (addresses.map (fun p => (p.2.filter (fun a => a.ipType == ext_tag)).map Address.addr)).flatten

/-- The floating addresses currently attached to a server. -/
def floatingOf (s : Server) : List String :=
  openstack_find_nova_addresses s.addresses "floating"

/-- All fixed addresses of an address map, tagged with their network. -/
def fixedAddresses (m : List (String × List Address)) : List (String × String) :=
  (m.map (fun p => (p.2.filter (fun a => a.ipType == "fixed")).map
    (fun a => (p.1, a.addr)))).flatten

/-- A `nics` list entry: a dictionary with at most one of the four
recognized keys. Unrecognized/absent keys are `none`. -/
structure Nic where
  net_id : Option String
  net_name : Option String
  port_id : Option String
  port_name : Option String
deriving DecidableEq, Repr

/-- Target state of the spec: `state ∈ {present, absent}`. -/
inductive TargetState
  | present
  | absent
deriving DecidableEq, BEq, Repr

/-- The module's validated parameter set (`ServerSpec`).  Optional parameters
whose argument-spec default is `None` are `Option`; `auto_floating_ip` is
`Option Bool` so that "the caller supplied it" (relevant to mutual exclusion)
is distinguishable from its default `True`. -/
structure ServerSpec where
  name : String
  image : Option String
  image_exclude : String
  flavor : Option String
  flavor_ram : Option Nat
  flavor_include : Option String
  key_name : Option String
  security_groups : String
  nics : List Nic
  userdata : Option String
  config_drive : Bool
  auto_floating_ip : Option Bool
  floating_ips : Option (List String)
  floating_ip_pools : Option (List String)
  root_volume : Option String
  terminate_volume : Bool
  wait : Bool
  timeout : Nat
  state : TargetState
deriving Repr

/-- Effective value of `auto_floating_ip` (argument-spec default `True`). -/
def ServerSpec.autoIp (s : ServerSpec) : Bool :=
  s.auto_floating_ip.getD true

/-- Error taxonomy of the module: `fail_json` outcomes, classified per the
spec's taxonomy. -/
inductive Err
  | SpecConflict (msg : String)
  | NotFound (msg : String)
  | InstanceInErrorState (status : String)
  | AllocationFailed (msg : String)
  | PoolExhausted
deriving DecidableEq, Repr

/-- An image catalog entry. -/
structure Image where
  id : String
  name : String
deriving DecidableEq, Repr

/-- A flavor catalog entry. -/
structure Flavor where
  id : String
  name : String
  ram : Nat
deriving DecidableEq, Repr

/-- Control-plane calls issued by the module, in order. -/
inductive Call
  | getServer (name : String)
  | createServer (name : String) (image : Option String) (flavorId : String) (nics : List Nic)
  | deleteServer (name : String)
  | attachIp (serverId : String) (addr : String)
  | attachAuto (serverId : String) (addr : String)
  | attachPool (serverId : String) (pool : String) (addr : String)
  | detachIp (serverId : String) (addr : String)
  | lookupNetwork (name : String)
  | lookupPort (name : String)
deriving DecidableEq, Repr

/-- The provider-side state observed/mutated through the cloud client. -/
structure CloudState where
  servers : List Server
  images : List Image
  flavors : List Flavor
  networks : List (String × String)
  ports : List (String × String)
  available_fips : List String
  auto_fip : Option String
  pools : List (String × List String)
  next_id : String
  next_fixed_ip : String
deriving Repr

/-- `cloud.get_server(name)`: first server whose name matches. -/
def get_server (cloud : CloudState) (name : String) : Option Server :=
  cloud.servers.find? (fun s => s.name == name)

/-- Name → id lookup used for `cloud.get_network` / `cloud.get_port`. -/
def lookupName (l : List (String × String)) (name : String) : Option String :=
  (l.find? (fun p => p.1 == name)).map Prod.snd

/-- Attach one floating address to a server record: the new `floating` entry
joins the first network's list (or a fresh `public` network if the map is
empty). -/
def attachAddr (server : Server) (a : String) : Server :=
  { server with addresses :=
      match server.addresses with
      | [] => [("public", [⟨a, "floating"⟩])]
      | (n, l) :: rest => (n, l ++ [⟨a, "floating"⟩]) :: rest }

/-- `nova_client.servers.remove_floating_ip(server, address)`: drop every
`floating` entry carrying that address; fixed entries are untouched. -/
def detachAddr (server : Server) (a : String) : Server :=
  { server with addresses :=
      server.addresses.map (fun p =>
        (p.1, p.2.filter (fun e => !(e.ipType == "floating" && e.addr == a)))) }

/-- Modelled from the spec: shade's `add_ip_list(server, ips)` — attach all of
the requested pre-existing floating IPs, failing with `AllocationFailed` if
any requested IP is not available/owned. -/
def add_ip_list (cloud : CloudState) (server : Server) (ips : List String) :
    Except Err (Server × List Call) :=
  if ips.all (fun ip => cloud.available_fips.contains ip) then
    .ok (ips.foldl attachAddr server, ips.map (fun ip => Call.attachIp server.id ip))
  else
    .error (.AllocationFailed "requested floating IP not available")

/-- First candidate pool that still has an address available. -/
def firstPoolWithCapacity (pools : List (String × List String)) :
    List String → Option (String × String)
  | [] => none
  | p :: rest =>
    match lookupListName pools p with
    | some (a :: _) => some (p, a)
    | _ => firstPoolWithCapacity pools rest
where
  /-- Pool name → available addresses. -/
  lookupListName (l : List (String × List String)) (name : String) :
      Option (List String) :=
    (l.find? (fun q => q.1 == name)).map Prod.snd

/-- Modelled from the spec: shade's `add_ips_to_server(server, auto_ip, ips,
ip_pool)` — explicit list: attach them all; pool list: allocate one address
from the first candidate pool with capacity (`PoolExhausted` if none); auto:
request one address from the provider's default allocation path. -/
def add_ips_to_server (cloud : CloudState) (server : Server) (auto_ip : Bool)
    (ips ip_pool : Option (List String)) : Except Err (Server × List Call) :=
  if truthyList ips then
    add_ip_list cloud server (ips.getD [])
  else if truthyList ip_pool then
    match firstPoolWithCapacity cloud.pools (ip_pool.getD []) with
    | some (pool, a) => .ok (attachAddr server a, [Call.attachPool server.id pool a])
    | none => .error .PoolExhausted
  else if auto_ip then
    match cloud.auto_fip with
    | some a => .ok (attachAddr server a, [Call.attachAuto server.id a])
    | none => .error (.AllocationFailed "no floating IP available for auto assignment")
  else
    .ok (server, [])

/-- `_delete_floating_ip_list(cloud, server, extra_ips)`: detach each extra
address in order. -/
def delete_floating_ip_list (server : Server) (extra_ips : List String) :
    Server × List Call :=
  (extra_ips.foldl detachAddr server, extra_ips.map (fun ip => Call.detachIp server.id ip))

/-- `_check_floating_ips(module, cloud, server)`: converge the server's
floating-IP exposure toward the configured policy, returning the changed
flag, the refreshed server and the calls issued. -/
def check_floating_ips (spec : ServerSpec) (cloud : CloudState) (server : Server) :
    Except Err (Bool × Server × List Call) :=
  if truthyList spec.floating_ip_pools || truthyList spec.floating_ips || spec.autoIp then
    let ips := openstack_find_nova_addresses server.addresses "floating"
    if ips.isEmpty then
      match add_ips_to_server cloud server spec.autoIp spec.floating_ips
          spec.floating_ip_pools with
      | .error e => .error e
      | .ok (server', calls) => .ok (true, server', calls)
    else if truthyList spec.floating_ips then
      let floating_ips := spec.floating_ips.getD []
      let missing_ips := floating_ips.filter (fun ip => !(ips.contains ip))
      match (if missing_ips.isEmpty then .ok (server, ([] : List Call))
             else add_ip_list cloud server missing_ips) with
      | .error e => .error e
      | .ok (server', attach_calls) =>
        let extra_ips := ips.filter (fun ip => !(floating_ips.contains ip))
        let (server'', detach_calls) :=
          if extra_ips.isEmpty then (server', ([] : List Call))
          else delete_floating_ip_list server' extra_ips
        .ok (!missing_ips.isEmpty || !extra_ips.isEmpty, server'',
             attach_calls ++ detach_calls)
    else
      .ok (false, server, [])
  else
    .ok (false, server, [])

/-- The mutually-exclusive parameter pairs declared in `main`'s
`module_kwargs`.  Modelled from the spec: the enforcement itself lives in
`AnsibleModule` (`ansible.module_utils.basic`, not under `src/`) — a pair
conflicts when both parameters are supplied by the caller. -/
def check_mutually_exclusive (spec : ServerSpec) : Option Err :=
  if spec.auto_floating_ip.isSome && spec.floating_ips.isSome then
    some (.SpecConflict "parameters are mutually exclusive: auto_floating_ip|floating_ips")
  else if spec.auto_floating_ip.isSome && spec.floating_ip_pools.isSome then
    some (.SpecConflict "parameters are mutually exclusive: auto_floating_ip|floating_ip_pools")
  else if spec.floating_ips.isSome && spec.floating_ip_pools.isSome then
    some (.SpecConflict "parameters are mutually exclusive: floating_ips|floating_ip_pools")
  else if spec.flavor.isSome && spec.flavor_ram.isSome then
    some (.SpecConflict "parameters are mutually exclusive: flavor|flavor_ram")
  else if spec.image.isSome && spec.root_volume.isSome then
    some (.SpecConflict "parameters are mutually exclusive: image|root_volume")
  else
    none

/-- `main`'s explicit required-field checks for `state == 'present'`. -/
def check_required_present (spec : ServerSpec) : Option Err :=
  if spec.state = .present then
    if spec.image.isNone && spec.root_volume.isNone then
      some (.SpecConflict "Parameter 'image' or 'root_volume' is required if state == 'present'")
    else if spec.flavor.isNone && spec.flavor_ram.isNone then
      some (.SpecConflict "Parameter 'flavor' or 'flavor_ram' is required if state == 'present'")
    else
      none
  else
    none

/-- The images that survive name/id matching plus the exclusion-substring
filter applied to the image name. -/
def image_candidates (images : List Image) (ref excl : String) : List Image :=
  images.filter (fun img =>
    (img.id == ref || img.name == ref) && !(!(excl == "") && strContains img.name excl))

/-- Modelled from the spec: shade's `get_image_id(name_or_id, exclude)` /
`resolveImage` — looks up images by name/id, applies the exclusion-substring
filter to the name, and fails with `NotFound` if zero or ambiguous results
remain. -/
def get_image_id (images : List Image) (ref excl : String) : Except Err String :=
  match image_candidates images ref excl with
  | [img] => .ok img.id
  | _ => .error (.NotFound ("Could not find image: " ++ ref))

/-- `cloud.get_flavor(ref)`: direct lookup by id or name. -/
def get_flavor (flavors : List Flavor) (ref : String) : Option Flavor :=
  flavors.find? (fun f => f.id == ref || f.name == ref)

/-- Modelled from the spec: shade's `get_flavor_by_ram(ram, include)` — the
flavor with the smallest RAM ≥ the requested minimum among those whose name
contains the include filter (empty filter matches all). -/
def get_flavor_by_ram (flavors : List Flavor) (minRam : Nat) (incl : Option String) :
    Option Flavor :=
  let cands := flavors.filter (fun f => decide (minRam ≤ f.ram) &&
    (match incl with
     | none => true
     | some s => s == "" || strContains f.name s))
  cands.foldl (fun best f =>
    match best with
    | none => some f
    | some b => if f.ram < b.ram then some f else some b) none

/-- `_network_args(module, cloud)`: walk the `nics` list; pass through
`net-id`/`port-id` entries, resolve `net-name`/`port-name` via a lookup
(failing when the name does not resolve), and drop every other entry. -/
def network_args (cloud : CloudState) : List Nic → Except Err (List Nic × List Call)
  | [] => .ok ([], [])
  | net :: rest =>
    if truthyStr net.net_id then
      match network_args cloud rest with
      | .error e => .error e
      | .ok (args, calls) => .ok (net :: args, calls)
    else if truthyStr net.net_name then
      match lookupName cloud.networks (net.net_name.getD "") with
      | none => .error (.NotFound ("Could not find network by net-name: " ++ net.net_name.getD ""))
      | some found =>
        match network_args cloud rest with
        | .error e => .error e
        | .ok (args, calls) =>
          .ok (⟨some found, none, none, none⟩ :: args,
               Call.lookupNetwork (net.net_name.getD "") :: calls)
    else if truthyStr net.port_id then
      match network_args cloud rest with
      | .error e => .error e
      | .ok (args, calls) => .ok (net :: args, calls)
    else if truthyStr net.port_name then
      match lookupName cloud.ports (net.port_name.getD "") with
      | none => .error (.NotFound ("Could not find port by port-name: " ++ net.port_name.getD ""))
      | some found =>
        match network_args cloud rest with
        | .error e => .error e
        | .ok (args, calls) =>
          .ok (⟨none, none, some found, none⟩ :: args,
               Call.lookupPort (net.port_name.getD "") :: calls)
    else
      network_args cloud rest

/-- The per-entry resolution of `_network_args` as a partial function:
`none` both for unrecognized entries (silently dropped) and failed lookups
(which make the whole walk fail instead). -/
def resolve_nic (cloud : CloudState) (net : Nic) : Option Nic :=
  if truthyStr net.net_id then some net
  else if truthyStr net.net_name then
    (lookupName cloud.networks (net.net_name.getD "")).map
      (fun found => ⟨some found, none, none, none⟩)
  else if truthyStr net.port_id then some net
  else if truthyStr net.port_name then
    (lookupName cloud.ports (net.port_name.getD "")).map
      (fun found => ⟨none, none, some found, none⟩)
  else none

/-- A `nics` entry carrying none of the four recognized keys (Python
truthiness: an absent key and an empty value alike). -/
def unrecognizedNic (net : Nic) : Bool :=
  !truthyStr net.net_id && !truthyStr net.net_name &&
  !truthyStr net.port_id && !truthyStr net.port_name

/-- Result of one module invocation: a JSON exit (`exit_json`) with the
changed flag, the server (when one is reported) and the `result` string, or a
`fail_json` with a typed error. -/
inductive Outcome
  | exited (changed : Bool) (server : Option Server) (result : Option String)
  | failed (e : Err)
deriving DecidableEq, Repr

/-- The floating addresses attached by a call trace. -/
def attachedOf : List Call → List String
  | [] => []
  | .attachIp _ a :: r => a :: attachedOf r
  | .attachAuto _ a :: r => a :: attachedOf r
  | .attachPool _ _ a :: r => a :: attachedOf r
  | _ :: r => attachedOf r

/-- Remove the floating addresses consumed by a call trace from the
provider's free pools. -/
def applyAttach (cloud : CloudState) (calls : List Call) : CloudState :=
  { cloud with
      available_fips := cloud.available_fips.filter
        (fun ip => !(attachedOf calls).contains ip),
      auto_fip := if calls.any (fun c => match c with
                    | .attachAuto _ _ => true
                    | _ => false) then none else cloud.auto_fip,
      pools := cloud.pools.map (fun p =>
        (p.1, p.2.filter (fun a => !(attachedOf calls).contains a))) }

/-- Replace the server carrying `server.name` in the provider's record
list. -/
def set_server (servers : List Server) (server : Server) : List Server :=
  servers.map (fun s => if s.name == server.name then server else s)

/-- Modelled from the spec: shade's `create_server(...)` — the boot request
is submitted and the provider begins building asynchronously.  When `wait`
is true the call blocks, bounded by the timeout, until the record is
`ACTIVE` (here: the successful outcome of that bounded wait) and then
applies the floating-IP policy the same way `add_ips_to_server` does; when
`wait` is false the call returns while the record is still `BUILDING`, with
no floating-IP convergence performed yet. -/
def cloud_create_server (cloud : CloudState) (spec : ServerSpec)
    (image_id : Option String) (flavor_id : String) (nics : List Nic) :
    Except Err (Server × CloudState × List Call) :=
  match spec.wait with
  | true =>
    match add_ips_to_server cloud
        { id := cloud.next_id, name := spec.name, status := "ACTIVE",
          addresses := [("private", [⟨cloud.next_fixed_ip, "fixed"⟩])] }
        spec.autoIp spec.floating_ips spec.floating_ip_pools with
    | .error e => .error e
    | .ok (server, acalls) =>
      .ok (server,
           { applyAttach cloud acalls with servers := cloud.servers ++ [server] },
           Call.createServer spec.name image_id flavor_id nics :: acalls)
  | false =>
    .ok ({ id := cloud.next_id, name := spec.name, status := "BUILDING",
           addresses := [("private", [⟨cloud.next_fixed_ip, "fixed"⟩])] },
         { cloud with servers := cloud.servers ++
             [{ id := cloud.next_id, name := spec.name, status := "BUILDING",
                addresses := [("private", [⟨cloud.next_fixed_ip, "fixed"⟩])] }] },
         [Call.createServer spec.name image_id flavor_id nics])

/-- `_create_server(module, cloud)`: resolve the image (unless booting from a
root volume), the flavor (direct or by RAM) and the nics, then boot and exit
with `changed=True`. -/
def create_server (spec : ServerSpec) (cloud : CloudState) :
    Outcome × CloudState × List Call :=
  let imageRes : Except Err (Option String) :=
    match spec.root_volume with
    | some _ => .ok none
    | none =>
      match get_image_id cloud.images (spec.image.getD "") spec.image_exclude with
      | .ok found => .ok (some found)
      | .error e => .error e
  match imageRes with
  | .error e => (.failed e, cloud, [])
  | .ok image_id =>
    let flavorRes : Except Err Flavor :=
      if truthyStr spec.flavor then
        match get_flavor cloud.flavors (spec.flavor.getD "") with
        | some fd => .ok fd
        | none => .error (.NotFound ("Could not find flavor " ++ spec.flavor.getD ""))
      else
        match get_flavor_by_ram cloud.flavors (spec.flavor_ram.getD 0) spec.flavor_include with
        | some fd => .ok fd
        | none => .error (.NotFound "Could not find any matching flavor")
    match flavorRes with
    | .error e => (.failed e, cloud, [])
    | .ok flavor_dict =>
      match network_args cloud spec.nics with
      | .error e => (.failed e, cloud, [])
      | .ok (nics, ncalls) =>
        match cloud_create_server cloud spec image_id flavor_dict.id nics with
        | .error e => (.failed e, cloud, ncalls)
        | .ok (server, cloud', ccalls) =>
          (.exited true (some server) none, cloud', ncalls ++ ccalls)

/-- The statuses `_get_server_state` accepts for floating-IP convergence. -/
def allowed_statuses : List String :=
  ["ACTIVE", "SHUTOFF", "PAUSED", "SUSPENDED"]

/-- One module invocation (`main` plus `_get_server_state` /
`_create_server` / `_delete_server`): validation, then the state machine over
target state × observed server, returning the outcome, the resulting
provider state and the ordered call trace. -/
def reconcile (spec : ServerSpec) (cloud : CloudState) :
    Outcome × CloudState × List Call :=
  match check_mutually_exclusive spec with
  | some e => (.failed e, cloud, [])
  | none =>
    match check_required_present spec with
    | some e => (.failed e, cloud, [])
    | none =>
      let t0 := [Call.getServer spec.name]
      match spec.state, get_server cloud spec.name with
      | .present, some server =>
        if allowed_statuses.contains server.status then
          match check_floating_ips spec cloud server with
          | .error e => (.failed e, cloud, t0)
          | .ok (changed, server', calls) =>
            (.exited changed (some server') none,
             { applyAttach cloud calls with servers := set_server cloud.servers server' },
             t0 ++ calls)
        else
          (.failed (.InstanceInErrorState server.status), cloud, t0)
      | .present, none =>
        let (out, cloud', calls) := create_server spec cloud
        (out, cloud', t0 ++ calls)
      | .absent, some _ =>
        (.exited true none (some "deleted"),
         { cloud with servers := cloud.servers.filter (fun s => !(s.name == spec.name)) },
         t0 ++ [Call.deleteServer spec.name])
      | .absent, none =>
        (.exited false none (some "not present"), cloud, t0)

/-! ## Basic lemmas about the address map -/

theorem fna_nil (tag : String) : openstack_find_nova_addresses [] tag = [] := rfl

theorem fna_cons (n : String) (l : List Address) (rest : List (String × List Address))
    (tag : String) :
    openstack_find_nova_addresses ((n, l) :: rest) tag =
      (l.filter (fun a => a.ipType == tag)).map Address.addr ++
        openstack_find_nova_addresses rest tag := rfl

theorem attachAddr_id (s : Server) (a : String) : (attachAddr s a).id = s.id := rfl

theorem attachAddr_name (s : Server) (a : String) : (attachAddr s a).name = s.name := rfl

theorem attachAddr_status (s : Server) (a : String) : (attachAddr s a).status = s.status := rfl

theorem detachAddr_id (s : Server) (a : String) : (detachAddr s a).id = s.id := rfl

theorem detachAddr_name (s : Server) (a : String) : (detachAddr s a).name = s.name := rfl

theorem detachAddr_status (s : Server) (a : String) : (detachAddr s a).status = s.status := rfl

theorem mem_floating_attach (s : Server) (a x : String) :
    x ∈ floatingOf (attachAddr s a) ↔ x ∈ floatingOf s ∨ x = a := by
  unfold floatingOf attachAddr
  cases h : s.addresses with
  | nil => simp [h, fna_nil, fna_cons, List.filter_cons]
  | cons p rest =>
    cases p with
    | mk n l =>
      simp only [h, fna_cons, List.filter_append, List.map_append, List.mem_append,
        List.filter_cons]
      simp only [show ((Address.mk a "floating").ipType == "floating") = true from rfl,
        List.filter_nil, if_true, List.map_cons, List.map_nil, List.mem_append,
        List.mem_singleton]
      tauto

theorem mem_floating_attach_fold (l : List String) (s : Server) (x : String) :
    x ∈ floatingOf (l.foldl attachAddr s) ↔ x ∈ floatingOf s ∨ x ∈ l := by
  induction l generalizing s with
  | nil => simp
  | cons a t ih =>
    simp only [List.foldl_cons, ih, mem_floating_attach, List.mem_cons]
    tauto

theorem mem_floating_detach (s : Server) (a x : String) :
    x ∈ floatingOf (detachAddr s a) ↔ x ∈ floatingOf s ∧ x ≠ a := by
  unfold floatingOf detachAddr
  generalize s.addresses = m
  induction m with
  | nil => simp [fna_nil]
  | cons p rest ih =>
    cases p with
    | mk n l =>
      simp only [List.map_cons, fna_cons, List.mem_append, ih]
      constructor
      · rintro (hx | hx)
        · simp only [List.mem_map, List.mem_filter] at hx
          obtain ⟨e, ⟨⟨hel, hkeep⟩, hfloat⟩, haddr⟩ := hx
          simp only [Bool.not_eq_true', Bool.and_eq_false_iff] at hkeep
          constructor
          · left
            simp only [List.mem_map, List.mem_filter]
            exact ⟨e, ⟨hel, hfloat⟩, haddr⟩
          · rcases hkeep with hk | hk
            · rw [beq_iff_eq] at hfloat; simp [hfloat] at hk
            · intro hxa
              rw [beq_eq_false_iff_ne] at hk
              exact hk (haddr.trans hxa ▸ rfl)
        · exact ⟨Or.inr hx.1, hx.2⟩
      · rintro ⟨hx | hx, hne⟩
        · left
          simp only [List.mem_map, List.mem_filter] at hx ⊢
          obtain ⟨e, ⟨hel, hfloat⟩, haddr⟩ := hx
          refine ⟨e, ⟨⟨hel, ?_⟩, hfloat⟩, haddr⟩
          simp only [Bool.not_eq_true', Bool.and_eq_false_iff]
          right
          rw [beq_eq_false_iff_ne]
          intro he
          exact hne (haddr ▸ he ▸ rfl)
        · exact Or.inr ⟨hx, hne⟩

theorem mem_floating_detach_fold (l : List String) (s : Server) (x : String) :
    x ∈ floatingOf (l.foldl detachAddr s) ↔ x ∈ floatingOf s ∧ x ∉ l := by
  induction l generalizing s with
  | nil => simp
  | cons a t ih =>
    simp only [List.foldl_cons, ih, mem_floating_detach, List.mem_cons]
    tauto

theorem attach_fold_id (l : List String) (s : Server) :
    (l.foldl attachAddr s).id = s.id := by
  induction l generalizing s with
  | nil => rfl
  | cons a t ih => simp [List.foldl_cons, ih, attachAddr_id]

theorem attach_fold_name (l : List String) (s : Server) :
    (l.foldl attachAddr s).name = s.name := by
  induction l generalizing s with
  | nil => rfl
  | cons a t ih => simp [List.foldl_cons, ih, attachAddr_name]

theorem attach_fold_status (l : List String) (s : Server) :
    (l.foldl attachAddr s).status = s.status := by
  induction l generalizing s with
  | nil => rfl
  | cons a t ih => simp [List.foldl_cons, ih, attachAddr_status]

theorem detach_fold_id (l : List String) (s : Server) :
    (l.foldl detachAddr s).id = s.id := by
  induction l generalizing s with
  | nil => rfl
  | cons a t ih => simp [List.foldl_cons, ih, detachAddr_id]

theorem detach_fold_name (l : List String) (s : Server) :
    (l.foldl detachAddr s).name = s.name := by
  induction l generalizing s with
  | nil => rfl
  | cons a t ih => simp [List.foldl_cons, ih, detachAddr_name]

theorem detach_fold_status (l : List String) (s : Server) :
    (l.foldl detachAddr s).status = s.status := by
  induction l generalizing s with
  | nil => rfl
  | cons a t ih => simp [List.foldl_cons, ih, detachAddr_status]

theorem fixedAddresses_nil : fixedAddresses [] = [] := rfl

theorem fixedAddresses_cons (n : String) (l : List Address)
    (rest : List (String × List Address)) :
    fixedAddresses ((n, l) :: rest) =
      (l.filter (fun a => a.ipType == "fixed")).map (fun a => (n, a.addr)) ++
        fixedAddresses rest := rfl

theorem filter_fixed_of_filter_keep (l : List Address) (a : String) :
    (l.filter (fun e => !(e.ipType == "floating" && e.addr == a))).filter
        (fun e => e.ipType == "fixed") =
      l.filter (fun e => e.ipType == "fixed") := by
  induction l with
  | nil => rfl
  | cons e t ih =>
    by_cases hf : e.ipType = "fixed"
    · have h1 : (e.ipType == "floating") = false := by rw [hf]; decide
      have h2 : ((e.ipType == "fixed") = true) := by rw [hf]; decide
      have hkeep : ((!(e.ipType == "floating" && e.addr == a)) = true) := by
        simp [h1]
      simp only [List.filter_cons]
      rw [if_pos hkeep]
      simp only [List.filter_cons]
      rw [if_pos h2, ih, if_pos h2]
    · have h2 : ((e.ipType == "fixed") = false) := by
        rw [beq_eq_false_iff_ne]; exact hf
      have h2' : ¬ ((e.ipType == "fixed") = true) := by simp [h2]
      cases h1 : (e.ipType == "floating" && e.addr == a) with
      | true =>
        have hkeep : ¬ ((!(e.ipType == "floating" && e.addr == a)) = true) := by
          simp [h1]
        simp only [List.filter_cons]
        rw [if_neg hkeep, ih, if_neg h2']
      | false =>
        have hkeep : ((!(e.ipType == "floating" && e.addr == a)) = true) := by
          simp [h1]
        simp only [List.filter_cons]
        rw [if_pos hkeep]
        simp only [List.filter_cons]
        rw [if_neg h2', ih, if_neg h2']

theorem fixed_attach (s : Server) (a : String) :
    fixedAddresses (attachAddr s a).addresses = fixedAddresses s.addresses := by
  unfold attachAddr
  cases h : s.addresses with
  | nil => simp [h, fixedAddresses_nil, fixedAddresses_cons, List.filter_cons]
  | cons p rest =>
    cases p with
    | mk n l =>
      simp only [h, fixedAddresses_cons, List.filter_append, List.map_append,
        List.filter_cons]
      simp

theorem fixed_detach (s : Server) (a : String) :
    fixedAddresses (detachAddr s a).addresses = fixedAddresses s.addresses := by
  unfold detachAddr
  generalize s.addresses = m
  induction m with
  | nil => rfl
  | cons p rest ih =>
    cases p with
    | mk n l =>
      simp only [List.map_cons, fixedAddresses_cons, ih,
        filter_fixed_of_filter_keep]

theorem fixed_attach_fold (l : List String) (s : Server) :
    fixedAddresses ((l.foldl attachAddr s).addresses) = fixedAddresses s.addresses := by
  induction l generalizing s with
  | nil => rfl
  | cons a t ih => simp [List.foldl_cons, ih, fixed_attach]

theorem fixed_detach_fold (l : List String) (s : Server) :
    fixedAddresses ((l.foldl detachAddr s).addresses) = fixedAddresses s.addresses := by
  induction l generalizing s with
  | nil => rfl
  | cons a t ih => simp [List.foldl_cons, ih, fixed_detach]

/-! ## Convergence lemmas for the floating-IP reconciler -/

theorem check_noop_of_policy_off (spec : ServerSpec) (cloud : CloudState) (server : Server)
    (hcond : (truthyList spec.floating_ip_pools || truthyList spec.floating_ips ||
      spec.autoIp) = false) :
    check_floating_ips spec cloud server = .ok (false, server, []) := by
  unfold check_floating_ips
  simp [hcond]

theorem check_noop_of_nonempty (spec : ServerSpec) (cloud : CloudState) (server : Server)
    (hips : truthyList spec.floating_ips = false)
    (hne : (floatingOf server).isEmpty = false) :
    check_floating_ips spec cloud server = .ok (false, server, []) := by
  unfold check_floating_ips
  cases hcond : (truthyList spec.floating_ip_pools || truthyList spec.floating_ips ||
      spec.autoIp) with
  | false => simp [hcond]
  | true =>
    simp only [hcond, if_true]
    unfold floatingOf at hne
    simp [hne, hips]

theorem check_converged_of_members (spec : ServerSpec) (cloud : CloudState) (s : Server)
    (hips : truthyList spec.floating_ips = true)
    (hmem : ∀ x, x ∈ floatingOf s ↔ x ∈ spec.floating_ips.getD []) :
    check_floating_ips spec cloud s = .ok (false, s, []) := by
  obtain ⟨l, hl⟩ : ∃ l, spec.floating_ips = some l := by
    cases h : spec.floating_ips with
    | none => rw [h] at hips; simp [truthyList] at hips
    | some l => exact ⟨l, rfl⟩
  have hgetD : spec.floating_ips.getD [] = l := by rw [hl]; rfl
  have hlne : l ≠ [] := by
    rw [hl] at hips
    simp [truthyList] at hips
    exact hips
  have hne : (openstack_find_nova_addresses s.addresses "floating").isEmpty = false := by
    rw [List.isEmpty_eq_false]
    intro hnil
    obtain ⟨x, hx⟩ := List.exists_mem_of_ne_nil l hlne
    have : x ∈ floatingOf s := (hmem x).mpr (hgetD ▸ hx)
    unfold floatingOf at this
    rw [hnil] at this
    exact absurd this (List.not_mem_nil x)
  have hne' : openstack_find_nova_addresses s.addresses "floating" ≠ [] := by
    rw [← List.isEmpty_eq_false]
    exact hne
  have hmiss : List.filter
      (fun ip => !decide (ip ∈ openstack_find_nova_addresses s.addresses "floating")) l = [] := by
    rw [List.filter_eq_nil_iff]
    intro a ha
    have hmemA : a ∈ floatingOf s := (hmem a).mpr (hgetD ▸ ha)
    unfold floatingOf at hmemA
    simp [hmemA]
  have hextra : List.filter (fun ip => !decide (ip ∈ l))
      (openstack_find_nova_addresses s.addresses "floating") = [] := by
    rw [List.filter_eq_nil_iff]
    intro a ha
    have hmemA : a ∈ l := hgetD ▸ (hmem a).mp ha
    simp [hmemA]
  have hips' : truthyList (some l) = true := hl ▸ hips
  simp [check_floating_ips, hips, hips', hl, hne', hmiss, hextra]

theorem add_ips_meta (cloud : CloudState) (server : Server) (auto : Bool)
    (ips pools : Option (List String)) (s' : Server) (calls : List Call)
    (h : add_ips_to_server cloud server auto ips pools = .ok (s', calls)) :
    s'.id = server.id ∧ s'.name = server.name ∧ s'.status = server.status := by
  unfold add_ips_to_server add_ip_list at h
  split at h
  · split at h
    · cases h
      exact ⟨attach_fold_id _ _, attach_fold_name _ _, attach_fold_status _ _⟩
    · cases h
  · split at h
    · split at h
      · cases h
        exact ⟨attachAddr_id _ _, attachAddr_name _ _, attachAddr_status _ _⟩
      · cases h
    · split at h
      · split at h
        · cases h
          exact ⟨attachAddr_id _ _, attachAddr_name _ _, attachAddr_status _ _⟩
        · cases h
      · cases h
        exact ⟨rfl, rfl, rfl⟩

theorem add_ips_converged (spec : ServerSpec) (cloud cloud2 : CloudState)
    (server s' : Server) (calls : List Call)
    (hempty : floatingOf server = [])
    (h : add_ips_to_server cloud server spec.autoIp spec.floating_ips
      spec.floating_ip_pools = .ok (s', calls)) :
    check_floating_ips spec cloud2 s' = .ok (false, s', []) := by
  unfold add_ips_to_server add_ip_list at h
  split at h
  · rename_i hips
    split at h
    · cases h
      apply check_converged_of_members _ _ _ hips
      intro x
      rw [mem_floating_attach_fold, hempty]
      simp
    · cases h
  · rename_i hips
    split at h
    · rename_i hpool
      split at h
      · rename_i pool pa hfirst
        cases h
        apply check_noop_of_nonempty _ _ _ (by simpa using hips)
        rw [List.isEmpty_eq_false]
        intro hnil
        have : pa ∈ floatingOf (attachAddr server pa) := by
          rw [mem_floating_attach]
          exact Or.inr rfl
        rw [hnil] at this
        exact absurd this (List.not_mem_nil _)
      · cases h
    · rename_i hpool
      split at h
      · rename_i hauto
        split at h
        · rename_i a hfip
          cases h
          apply check_noop_of_nonempty _ _ _ (by simpa using hips)
          rw [List.isEmpty_eq_false]
          intro hnil
          have : a ∈ floatingOf (attachAddr server a) := by
            rw [mem_floating_attach]
            exact Or.inr rfl
          rw [hnil] at this
          exact absurd this (List.not_mem_nil _)
        · cases h
      · rename_i hauto
        cases h
        apply check_noop_of_policy_off
        simp only [Bool.or_eq_false_iff]
        refine ⟨⟨by simpa using hpool, by simpa using hips⟩, ?_⟩
        simpa using hauto

theorem delete_fst (server : Server) (extra : List String) :
    (delete_floating_ip_list server extra).1 = extra.foldl detachAddr server := rfl

theorem delete_snd (server : Server) (extra : List String) :
    (delete_floating_ip_list server extra).2 =
      extra.map (fun ip => Call.detachIp server.id ip) := rfl

theorem attach_step_meta (cloud : CloudState) (server : Server) (missing : List String)
    (s1 : Server) (acalls : List Call)
    (h : (if missing.isEmpty = true then Except.ok (server, ([] : List Call))
          else add_ip_list cloud server missing) = .ok (s1, acalls)) :
    s1.id = server.id ∧ s1.name = server.name ∧ s1.status = server.status := by
  split at h
  · cases h
    exact ⟨rfl, rfl, rfl⟩
  · unfold add_ip_list at h
    split at h
    · cases h
      exact ⟨attach_fold_id _ _, attach_fold_name _ _, attach_fold_status _ _⟩
    · cases h

theorem attach_step_floating (cloud : CloudState) (server : Server) (missing : List String)
    (s1 : Server) (acalls : List Call)
    (h : (if missing.isEmpty = true then Except.ok (server, ([] : List Call))
          else add_ip_list cloud server missing) = .ok (s1, acalls)) :
    ∀ x, x ∈ floatingOf s1 ↔ x ∈ floatingOf server ∨ x ∈ missing := by
  intro x
  split at h
  · rename_i hm
    rw [List.isEmpty_eq_true] at hm
    cases h
    simp [hm]
  · unfold add_ip_list at h
    split at h
    · cases h
      exact mem_floating_attach_fold _ _ _
    · cases h

theorem attach_step_calls (cloud : CloudState) (server : Server) (missing : List String)
    (s1 : Server) (acalls : List Call)
    (h : (if missing.isEmpty = true then Except.ok (server, ([] : List Call))
          else add_ip_list cloud server missing) = .ok (s1, acalls)) :
    acalls = missing.map (fun ip => Call.attachIp server.id ip) := by
  split at h
  · rename_i hm
    rw [List.isEmpty_eq_true] at hm
    cases h
    simp [hm]
  · unfold add_ip_list at h
    split at h
    · cases h
      rfl
    · cases h

theorem attach_step_fixed (cloud : CloudState) (server : Server) (missing : List String)
    (s1 : Server) (acalls : List Call)
    (h : (if missing.isEmpty = true then Except.ok (server, ([] : List Call))
          else add_ip_list cloud server missing) = .ok (s1, acalls)) :
    fixedAddresses s1.addresses = fixedAddresses server.addresses := by
  split at h
  · cases h
    rfl
  · unfold add_ip_list at h
    split at h
    · cases h
      exact fixed_attach_fold _ _
    · cases h

theorem add_ips_fixed (cloud : CloudState) (server : Server) (auto : Bool)
    (ips pools : Option (List String)) (s' : Server) (calls : List Call)
    (h : add_ips_to_server cloud server auto ips pools = .ok (s', calls)) :
    fixedAddresses s'.addresses = fixedAddresses server.addresses := by
  unfold add_ips_to_server add_ip_list at h
  split at h
  · split at h
    · cases h
      exact fixed_attach_fold _ _
    · cases h
  · split at h
    · split at h
      · cases h
        exact fixed_attach _ _
      · cases h
    · split at h
      · split at h
        · cases h
          exact fixed_attach _ _
        · cases h
      · cases h
        rfl

theorem check_meta (spec : ServerSpec) (cloud : CloudState) (server : Server)
    (c : Bool) (s' : Server) (calls : List Call)
    (h : check_floating_ips spec cloud server = .ok (c, s', calls)) :
    s'.id = server.id ∧ s'.name = server.name ∧ s'.status = server.status := by
  unfold check_floating_ips at h
  simp only [] at h
  split at h
  · split at h
    · split at h
      · cases h
      · rename_i p hadd
        cases h
        exact add_ips_meta _ _ _ _ _ _ _ hadd
    · split at h
      · split at h
        · cases h
        · rename_i s1 acalls hattach
          split at h
          · cases h
            exact attach_step_meta _ _ _ _ _ hattach
          · cases h
            rw [delete_fst]
            obtain ⟨h1, h2, h3⟩ := attach_step_meta _ _ _ _ _ hattach
            exact ⟨(detach_fold_id _ _).trans h1, (detach_fold_name _ _).trans h2,
              (detach_fold_status _ _).trans h3⟩
      · cases h
        exact ⟨rfl, rfl, rfl⟩
  · cases h
    exact ⟨rfl, rfl, rfl⟩

theorem check_fixed (spec : ServerSpec) (cloud : CloudState) (server : Server)
    (c : Bool) (s' : Server) (calls : List Call)
    (h : check_floating_ips spec cloud server = .ok (c, s', calls)) :
    fixedAddresses s'.addresses = fixedAddresses server.addresses := by
  unfold check_floating_ips at h
  simp only [] at h
  split at h
  · split at h
    · split at h
      · cases h
      · rename_i p hadd
        cases h
        exact add_ips_fixed _ _ _ _ _ _ _ hadd
    · split at h
      · split at h
        · cases h
        · rename_i s1 acalls hattach
          split at h
          · cases h
            exact attach_step_fixed _ _ _ _ _ hattach
          · cases h
            rw [delete_fst]
            exact (fixed_detach_fold _ _).trans (attach_step_fixed _ _ _ _ _ hattach)
      · cases h
        rfl
  · cases h
    rfl

theorem mem_converge_iff (desired observed : List String) (x : String) :
    ((x ∈ observed ∨ x ∈ desired.filter (fun ip => !(observed.contains ip))) ∧
      x ∉ observed.filter (fun ip => !(desired.contains ip))) ↔ x ∈ desired := by
  simp [List.mem_filter, List.contains]
  tauto

theorem check_converged (spec : ServerSpec) (cloud cloud2 : CloudState) (server : Server)
    (c : Bool) (s' : Server) (calls : List Call)
    (h : check_floating_ips spec cloud server = .ok (c, s', calls)) :
    check_floating_ips spec cloud2 s' = .ok (false, s', []) := by
  unfold check_floating_ips at h
  simp only [] at h
  split at h
  · rename_i hcond
    split at h
    · rename_i hempty
      split at h
      · cases h
      · rename_i p hadd
        cases h
        exact add_ips_converged _ _ _ _ _ _ (List.isEmpty_eq_true.mp hempty) hadd
    · rename_i hnonempty
      split at h
      · rename_i hips
        split at h
        · cases h
        · rename_i s1 acalls hattach
          have hmem1 := attach_step_floating _ _ _ _ _ hattach
          split at h
          · rename_i hextra
            cases h
            apply check_converged_of_members _ _ _ hips
            intro x
            have hext : List.filter
                (fun ip => !(spec.floating_ips.getD []).contains ip)
                (openstack_find_nova_addresses server.addresses "floating") = [] :=
              List.isEmpty_eq_true.mp hextra
            have hx := mem_converge_iff (spec.floating_ips.getD [])
              (openstack_find_nova_addresses server.addresses "floating") x
            rw [hext] at hx
            simp only [List.not_mem_nil, not_false_iff, and_true] at hx
            exact (hmem1 x).trans hx
          · cases h
            apply check_converged_of_members _ _ _ hips
            intro x
            rw [delete_fst, mem_floating_detach_fold]
            have hx := mem_converge_iff (spec.floating_ips.getD [])
              (openstack_find_nova_addresses server.addresses "floating") x
            exact (and_congr_left (fun _ => hmem1 x)).trans hx
      · rename_i hips
        cases h
        exact check_noop_of_nonempty _ _ _ (by simpa using hips) (by simpa using hnonempty)
  · rename_i hcond
    cases h
    exact check_noop_of_policy_off _ _ _ (by simpa using hcond)

/-! ## Lemmas about the reconcile state machine -/

theorem get_server_set (servers : List Server) (name : String) (old new : Server)
    (hfind : servers.find? (fun s => s.name == name) = some old)
    (hname : new.name = old.name) :
    (set_server servers new).find? (fun s => s.name == name) = some new := by
  have hold := List.find?_some hfind
  simp only [] at hold
  induction servers with
  | nil => cases hfind
  | cons p rest ih =>
    rw [List.find?_cons] at hfind
    unfold set_server
    rw [List.map_cons, List.find?_cons]
    cases hp : (p.name == name) with
    | true =>
      rw [hp] at hfind
      injection hfind with hpo
      subst hpo
      have hpn : (p.name == new.name) = true := by
        rw [hname]
        exact beq_self_eq_true _
      rw [if_pos hpn]
      have hnn : (new.name == name) = true := by
        rw [hname]
        exact hp
      rw [hnn]
    | false =>
      rw [hp] at hfind
      have hpn : (p.name == new.name) = false := by
        rw [beq_eq_false_iff_ne]
        intro he
        rw [hname] at he
        rw [he] at hp
        rw [hp] at hold
        simp at hold
      rw [if_neg (by simp [hpn])]
      rw [hp]
      exact ih hfind

theorem get_server_append (servers : List Server) (name : String) (new : Server)
    (hnone : servers.find? (fun s => s.name == name) = none)
    (hname : (new.name == name) = true) :
    (servers ++ [new]).find? (fun s => s.name == name) = some new := by
  rw [List.find?_append, hnone]
  simp [List.find?_cons, hname]

theorem base_floating_empty (v : String) :
    openstack_find_nova_addresses [("private", [⟨v, "fixed"⟩])] "floating" = [] := by
  have hfx : (("fixed" : String) == "floating") = false := by decide
  simp [openstack_find_nova_addresses, hfx]

theorem base_floating_empty_server (i n v : String) :
    floatingOf
      { id := i, name := n, status := "ACTIVE",
        addresses := [("private", [⟨v, "fixed"⟩])] } = [] :=
  base_floating_empty v

theorem create_server_exited (spec : ServerSpec) (cloud : CloudState)
    (ch : Bool) (sv : Option Server) (res : Option String)
    (cloud' : CloudState) (calls : List Call)
    (hw : spec.wait = true)
    (h : create_server spec cloud = (.exited ch sv res, cloud', calls)) :
    ∃ server, sv = some server ∧ ch = true ∧ res = none ∧
      cloud'.servers = cloud.servers ++ [server] ∧
      server.name = spec.name ∧ server.status = "ACTIVE" ∧
      (∀ cloud2, check_floating_ips spec cloud2 server = .ok (false, server, [])) := by
  unfold create_server at h
  simp only [] at h
  split at h
  · simp at h
  · split at h
    · simp at h
    · split at h
      · simp at h
      · rename_i nics ncalls hna
        split at h
        · simp at h
        · rename_i server cloud2 ccalls hcc
          unfold cloud_create_server at hcc
          rw [hw] at hcc
          simp only [] at hcc
          split at hcc
          · cases hcc
          · rename_i srv acalls hadd
            injection hcc with hcc1
            injection hcc1 with hsrv hcc2
            injection hcc2 with hcloud2 hccalls
            subst hsrv
            simp only [Prod.mk.injEq, Outcome.exited.injEq] at h
            obtain ⟨⟨hch, hsv, hres⟩, hcl, hcalls⟩ := h
            obtain ⟨hid, hnm, hst⟩ := add_ips_meta _ _ _ _ _ _ _ hadd
            refine ⟨srv, hsv.symm, hch.symm, hres.symm, ?_, ?_, ?_, ?_⟩
            · rw [← hcl, ← hcloud2]
            · exact hnm
            · exact hst
            · intro cloud3
              exact add_ips_converged _ _ _ _ _ _
                (base_floating_empty_server cloud.next_id spec.name cloud.next_fixed_ip) hadd

theorem reconcile_idempotent_core (spec : ServerSpec) (cloud : CloudState)
    (hpres : spec.state = .present)
    (hw : spec.wait = true)
    (ch : Bool) (sv : Option Server) (res : Option String)
    (cloud' : CloudState) (calls : List Call)
    (h : reconcile spec cloud = (.exited ch sv res, cloud', calls)) :
    ∃ sv2, (reconcile spec cloud').1 = .exited false sv2 none := by
  unfold reconcile at h
  split at h
  · simp at h
  · rename_i hme
    split at h
    · simp at h
    · rename_i hrp
      split at h
      · -- present, some server
        rename_i server hstate hfound
        split at h
        · rename_i hstat
          split at h
          · simp at h
          · rename_i c0 s0 calls0 hcheck
            simp only [Prod.mk.injEq, Outcome.exited.injEq] at h
            obtain ⟨⟨hch, hsv, hres⟩, hcl, hcalls⟩ := h
            obtain ⟨hid, hnm, hst⟩ := check_meta _ _ _ _ _ _ hcheck
            have hfound' : get_server cloud spec.name = some server := hfound
            unfold get_server at hfound'
            have hfind2 : get_server cloud' spec.name = some s0 := by
              rw [← hcl]
              unfold get_server
              exact get_server_set _ _ server s0 hfound' hnm
            have hstat2 : s0.status ∈ allowed_statuses := by
              rw [hst]
              simpa using hstat
            have hconv := check_converged spec cloud cloud' server c0 s0 calls0 hcheck
            refine ⟨some s0, ?_⟩
            unfold reconcile
            simp [hme, hrp, hpres, hfind2, hstat2, hconv]
        · simp at h
      · -- present, absent: create path
        rename_i hstate hnofound
        rcases hcs : create_server spec cloud with ⟨out, cloud2, calls2⟩
        rw [hcs] at h
        simp only [Prod.mk.injEq] at h
        obtain ⟨hout, hcl, hcalls⟩ := h
        rw [hout, hcl] at hcs
        obtain ⟨server, hsv, hch, hres, hsrv, hnm, hst, hconv⟩ :=
          create_server_exited _ _ _ _ _ _ _ hw hcs
        have hnofound' : get_server cloud spec.name = none := hnofound
        unfold get_server at hnofound'
        have hfind2 : get_server cloud' spec.name = some server := by
          unfold get_server
          rw [hsrv]
          apply get_server_append _ _ _ hnofound'
          rw [hnm]
          exact beq_self_eq_true _
        have hstat2 : server.status ∈ allowed_statuses := by
          rw [hst]
          unfold allowed_statuses
          simp
        refine ⟨some server, ?_⟩
        unfold reconcile
        simp [hme, hrp, hpres, hfind2, hstat2, hconv cloud']
      · -- absent, some: contradicts hpres
        rename_i hstate hfound
        rw [hpres] at hstate
        cases hstate
      · rename_i hstate hnofound
        rw [hpres] at hstate
        cases hstate

/-! ## Lemmas about `_network_args` and image resolution -/

theorem network_args_skip (cloud : CloudState) (e : Nic) (he : unrecognizedNic e = true)
    (xs ys : List Nic) :
    network_args cloud (xs ++ e :: ys) = network_args cloud (xs ++ ys) := by
  simp only [unrecognizedNic, Bool.and_eq_true, Bool.not_eq_true'] at he
  obtain ⟨⟨⟨h1, h2⟩, h3⟩, h4⟩ := he
  induction xs with
  | nil =>
    simp only [List.nil_append]
    rw [network_args]
    simp [h1, h2, h3, h4]
  | cons x xs ih =>
    simp only [List.cons_append]
    rw [network_args, network_args]
    simp only [ih]

theorem network_args_filterMap (cloud : CloudState) (nics : List Nic)
    (args : List Nic) (calls : List Call)
    (h : network_args cloud nics = .ok (args, calls)) :
    args = nics.filterMap (resolve_nic cloud) := by
  induction nics generalizing args calls with
  | nil =>
    rw [network_args] at h
    injection h with h
    injection h with ha hc
    rw [← ha]
    rfl
  | cons net rest ih =>
    rw [network_args] at h
    split at h
    · rename_i hid
      split at h
      · cases h
      · rename_i args2 calls2 hrest
        injection h with h
        injection h with ha hc
        rw [← ha, List.filterMap_cons]
        simp only [resolve_nic, hid, if_true, Bool.false_eq_true, Bool.true_eq_false, if_false]
        rw [ih _ _ hrest]
    · rename_i hid
      split at h
      · rename_i hname
        split at h
        · cases h
        · rename_i found hfound
          split at h
          · cases h
          · rename_i args2 calls2 hrest
            injection h with h
            injection h with ha hc
            rw [← ha, List.filterMap_cons]
            simp only [resolve_nic, hid, hname, if_true, if_false, hfound, Option.map_some',
              Bool.false_eq_true, Bool.true_eq_false]
            rw [ih _ _ hrest]
      · rename_i hname
        split at h
        · rename_i hpid
          split at h
          · cases h
          · rename_i args2 calls2 hrest
            injection h with h
            injection h with ha hc
            rw [← ha, List.filterMap_cons]
            simp only [resolve_nic, hid, hname, hpid, if_true, if_false, Bool.false_eq_true, Bool.true_eq_false]
            rw [ih _ _ hrest]
        · rename_i hpid
          split at h
          · rename_i hpname
            split at h
            · cases h
            · rename_i found hfound
              split at h
              · cases h
              · rename_i args2 calls2 hrest
                injection h with h
                injection h with ha hc
                rw [← ha, List.filterMap_cons]
                simp only [resolve_nic, hid, hname, hpid, hpname, if_true, if_false,
                  hfound, Option.map_some', Bool.false_eq_true, Bool.true_eq_false, eq_self_iff_true]
                rw [ih _ _ hrest]
          · rename_i hpname
            rw [List.filterMap_cons]
            simp only [resolve_nic, hid, hname, hpid, hpname, if_false, Bool.false_eq_true, Bool.true_eq_false]
            exact ih _ _ h

theorem network_args_calls_shape (cloud : CloudState) (nics : List Nic)
    (args : List Nic) (calls : List Call)
    (h : network_args cloud nics = .ok (args, calls)) :
    ∀ c ∈ calls, (∃ nm, c = Call.lookupNetwork nm) ∨ (∃ nm, c = Call.lookupPort nm) := by
  induction nics generalizing args calls with
  | nil =>
    rw [network_args] at h
    injection h with h
    injection h with ha hc
    rw [← hc]
    intro c hcm
    cases hcm
  | cons net rest ih =>
    rw [network_args] at h
    split at h
    · split at h
      · cases h
      · rename_i args2 calls2 hrest
        injection h with h
        injection h with ha hc
        rw [← hc]
        exact ih _ _ hrest
    · split at h
      · split at h
        · cases h
        · rename_i found hfound
          split at h
          · cases h
          · rename_i args2 calls2 hrest
            injection h with h
            injection h with ha hc
            rw [← hc]
            intro c hcm
            cases hcm with
            | head => exact Or.inl ⟨_, rfl⟩
            | tail _ hcm2 => exact ih _ _ hrest c hcm2
      · split at h
        · split at h
          · cases h
          · rename_i args2 calls2 hrest
            injection h with h
            injection h with ha hc
            rw [← hc]
            exact ih _ _ hrest
        · split at h
          · split at h
            · cases h
            · rename_i found hfound
              split at h
              · cases h
              · rename_i args2 calls2 hrest
                injection h with h
                injection h with ha hc
                rw [← hc]
                intro c hcm
                cases hcm with
                | head => exact Or.inr ⟨_, rfl⟩
                | tail _ hcm2 => exact ih _ _ hrest c hcm2
          · exact ih _ _ h

theorem add_ips_calls_shape (cloud : CloudState) (server : Server) (auto : Bool)
    (ips pools : Option (List String)) (s' : Server) (acalls : List Call)
    (h : add_ips_to_server cloud server auto ips pools = .ok (s', acalls)) :
    ∀ c ∈ acalls, (∃ si a, c = Call.attachIp si a) ∨ (∃ si a, c = Call.attachAuto si a) ∨
      (∃ si p a, c = Call.attachPool si p a) := by
  unfold add_ips_to_server add_ip_list at h
  split at h
  · split at h
    · cases h
      intro c hcm
      rw [List.mem_map] at hcm
      obtain ⟨ip, _, hip⟩ := hcm
      exact Or.inl ⟨_, _, hip.symm⟩
    · cases h
  · split at h
    · split at h
      · cases h
        intro c hcm
        cases hcm with
        | head => exact Or.inr (Or.inr ⟨_, _, _, rfl⟩)
        | tail _ hcm2 => cases hcm2
      · cases h
    · split at h
      · split at h
        · cases h
          intro c hcm
          cases hcm with
          | head => exact Or.inr (Or.inl ⟨_, _, rfl⟩)
          | tail _ hcm2 => cases hcm2
        · cases h
      · cases h
        intro c hcm
        cases hcm

theorem get_image_id_error_of_not_unique (images : List Image) (ref excl : String)
    (h : (image_candidates images ref excl).length ≠ 1) :
    ∃ m, get_image_id images ref excl = .error (.NotFound m) := by
  unfold get_image_id
  cases hc : image_candidates images ref excl with
  | nil => exact ⟨_, rfl⟩
  | cons a t =>
    cases t with
    | nil =>
      rw [hc] at h
      simp at h
    | cons b t2 => exact ⟨_, rfl⟩

theorem get_image_id_ok_unique (images : List Image) (ref excl found : String)
    (h : get_image_id images ref excl = .ok found) :
    ∃ img, image_candidates images ref excl = [img] ∧ img.id = found := by
  unfold get_image_id at h
  split at h
  · rename_i img heq
    injection h with h2
    exact ⟨img, heq, h2⟩
  · cases h

theorem create_server_boot_image (spec : ServerSpec) (cloud : CloudState)
    (n : String) (iid : Option String) (fid : String) (nc : List Nic)
    (hrv : spec.root_volume = none)
    (hmem : Call.createServer n iid fid nc ∈ (create_server spec cloud).2.2) :
    ∃ found, get_image_id cloud.images (spec.image.getD "") spec.image_exclude = .ok found ∧
      iid = some found := by
  unfold create_server at hmem
  rw [hrv] at hmem
  simp only [] at hmem
  cases hgi : get_image_id cloud.images (spec.image.getD "") spec.image_exclude with
  | error e =>
    rw [hgi] at hmem
    simp at hmem
  | ok found =>
    rw [hgi] at hmem
    simp only [] at hmem
    refine ⟨found, rfl, ?_⟩
    split at hmem
    · simp at hmem
    · split at hmem
      · simp at hmem
      · rename_i nics2 ncalls hna
        split at hmem
        · rename_i e hcc
          simp only [] at hmem
          rcases network_args_calls_shape _ _ _ _ hna _ hmem with ⟨nm, hccl⟩ | ⟨nm, hccl⟩ <;>
            cases hccl
        · rename_i srv cl2 ccalls hcc
          unfold cloud_create_server at hcc
          simp only [] at hcc
          split at hcc
          · split at hcc
            · cases hcc
            · rename_i srv0 acalls0 hadd
              injection hcc with hcc1
              injection hcc1 with hsrv hcc2
              injection hcc2 with hcl hcalls
              simp only [] at hmem
              rw [← hcalls] at hmem
              rw [List.mem_append] at hmem
              cases hmem with
              | inl hin =>
                rcases network_args_calls_shape _ _ _ _ hna _ hin with
                  ⟨nm, hccl⟩ | ⟨nm, hccl⟩ <;> cases hccl
              | inr hin =>
                cases hin with
                | head => rfl
                | tail _ hin2 =>
                  rcases add_ips_calls_shape _ _ _ _ _ _ _ hadd _ hin2 with
                    ⟨si, a, hccl⟩ | ⟨si, a, hccl⟩ | ⟨si, p, a, hccl⟩ <;> cases hccl
          · injection hcc with hcc1
            injection hcc1 with hsrv hcc2
            injection hcc2 with hcl hcalls
            simp only [] at hmem
            rw [← hcalls] at hmem
            rw [List.mem_append] at hmem
            cases hmem with
            | inl hin =>
              rcases network_args_calls_shape _ _ _ _ hna _ hin with
                ⟨nm, hccl⟩ | ⟨nm, hccl⟩ <;> cases hccl
            | inr hin =>
              cases hin with
              | head => rfl
              | tail _ hin2 => cases hin2

/-- C2: under the explicit floating-IP list policy, the reconciler attaches
every address of `missing = desired − observed` before detaching any address
of `extra = observed − desired` (the trace is the attach calls followed by
the detach calls), and the resulting floating-IP set equals the desired set. -/
theorem explicit_list_converges (spec : ServerSpec) (cloud : CloudState) (server : Server)
    (hips : truthyList spec.floating_ips = true)
    (havail : ((spec.floating_ips.getD []).filter
        (fun ip => !((floatingOf server).contains ip))).all
        (fun ip => cloud.available_fips.contains ip) = true) :
    check_floating_ips spec cloud server =
      .ok (!((spec.floating_ips.getD []).filter
              (fun ip => !((floatingOf server).contains ip))).isEmpty ||
           !((floatingOf server).filter
              (fun ip => !((spec.floating_ips.getD []).contains ip))).isEmpty,
          ((floatingOf server).filter
              (fun ip => !((spec.floating_ips.getD []).contains ip))).foldl detachAddr
            (((spec.floating_ips.getD []).filter
              (fun ip => !((floatingOf server).contains ip))).foldl attachAddr server),
          ((spec.floating_ips.getD []).filter
              (fun ip => !((floatingOf server).contains ip))).map
            (fun ip => Call.attachIp server.id ip) ++
          ((floatingOf server).filter
              (fun ip => !((spec.floating_ips.getD []).contains ip))).map
            (fun ip => Call.detachIp server.id ip)) ∧
    ∀ x, (x ∈ floatingOf (((floatingOf server).filter
              (fun ip => !((spec.floating_ips.getD []).contains ip))).foldl detachAddr
            (((spec.floating_ips.getD []).filter
              (fun ip => !((floatingOf server).contains ip))).foldl attachAddr server)) ↔
          x ∈ spec.floating_ips.getD []) := by
  constructor
  · unfold floatingOf at havail ⊢
    have hdesne : spec.floating_ips.getD [] ≠ [] := by
      cases hfi : spec.floating_ips with
      | none => rw [hfi] at hips; simp [truthyList] at hips
      | some l =>
        rw [hfi] at hips
        simp [truthyList] at hips
        simpa using hips
    have hdesb : (spec.floating_ips.getD []).isEmpty = false := by
      rw [List.isEmpty_eq_false]
      exact hdesne
    unfold check_floating_ips
    rw [hips]
    rw [if_pos (show (truthyList spec.floating_ip_pools || true || spec.autoIp) = true by simp)]
    simp only []
    cases hobs : (openstack_find_nova_addresses server.addresses "floating").isEmpty with
    | true =>
      have hobs' : openstack_find_nova_addresses server.addresses "floating" = [] :=
        List.isEmpty_eq_true.mp hobs
      have hfull : (spec.floating_ips.getD []).filter
          (fun ip => !(List.contains ([] : List String) ip)) = spec.floating_ips.getD [] := by
        apply List.filter_eq_self.mpr
        intro a _
        rfl
      have havail2 : ((spec.floating_ips.getD []).all
          (fun ip => cloud.available_fips.contains ip)) = true := by
        rw [hobs', hfull] at havail
        exact havail
      have hal : add_ip_list cloud server (spec.floating_ips.getD []) =
          .ok ((spec.floating_ips.getD []).foldl attachAddr server,
               (spec.floating_ips.getD []).map (fun ip => Call.attachIp server.id ip)) := by
        unfold add_ip_list
        rw [if_pos havail2]
      rw [if_pos rfl]
      unfold add_ips_to_server
      rw [hips, if_pos rfl, hal]
      rw [hobs', hfull]
      simp only [List.filter_nil, List.foldl_nil, List.map_nil, List.append_nil,
        List.isEmpty_nil, hdesb, Bool.not_false, Bool.not_true, Bool.or_false]
    | false =>
      rw [if_neg Bool.false_ne_true, if_pos trivial]
      have hal : add_ip_list cloud server
          (List.filter
            (fun ip => !(openstack_find_nova_addresses server.addresses "floating").contains ip)
            (spec.floating_ips.getD [])) =
          .ok ((List.filter
              (fun ip => !(openstack_find_nova_addresses server.addresses "floating").contains ip)
              (spec.floating_ips.getD [])).foldl attachAddr server,
            (List.filter
              (fun ip => !(openstack_find_nova_addresses server.addresses "floating").contains ip)
              (spec.floating_ips.getD [])).map (fun ip => Call.attachIp server.id ip)) := by
        unfold add_ip_list
        rw [if_pos havail]
      cases hmiss : (List.filter
          (fun ip => !(openstack_find_nova_addresses server.addresses "floating").contains ip)
          (spec.floating_ips.getD [])).isEmpty with
      | true =>
        have hmiss' : List.filter
            (fun ip => !(openstack_find_nova_addresses server.addresses "floating").contains ip)
            (spec.floating_ips.getD []) = [] := List.isEmpty_eq_true.mp hmiss
        rw [if_pos rfl]
        simp only []
        cases hext : (List.filter (fun ip => !(spec.floating_ips.getD []).contains ip)
            (openstack_find_nova_addresses server.addresses "floating")).isEmpty with
        | true =>
          have hext' : List.filter (fun ip => !(spec.floating_ips.getD []).contains ip)
              (openstack_find_nova_addresses server.addresses "floating") = [] :=
            List.isEmpty_eq_true.mp hext
          rw [if_pos rfl, hmiss', hext']
          simp only [List.foldl_nil, List.map_nil, List.append_nil, List.isEmpty_nil,
            Bool.not_true, Bool.or_false]
        | false =>
          rw [if_neg Bool.false_ne_true]
          unfold delete_floating_ip_list
          rw [hmiss']
          simp only [List.foldl_nil, List.map_nil, List.nil_append, List.isEmpty_nil,
            Bool.not_true, Bool.false_or]
      | false =>
        rw [if_neg Bool.false_ne_true, hal]
        simp only []
        cases hext : (List.filter (fun ip => !(spec.floating_ips.getD []).contains ip)
            (openstack_find_nova_addresses server.addresses "floating")).isEmpty with
        | true =>
          have hext' : List.filter (fun ip => !(spec.floating_ips.getD []).contains ip)
              (openstack_find_nova_addresses server.addresses "floating") = [] :=
            List.isEmpty_eq_true.mp hext
          rw [if_pos rfl, hext']
          simp only [List.foldl_nil, List.map_nil, List.append_nil, List.isEmpty_nil,
            Bool.not_true, Bool.or_false]
        | false =>
          rw [if_neg Bool.false_ne_true]
          unfold delete_floating_ip_list
          rw [attach_fold_id]
  · intro x
    rw [mem_floating_detach_fold, mem_floating_attach_fold]
    exact mem_converge_iff _ _ x

/-! ## Claim theorems -/

/-- C1: a ServerSpec that sets both fields of any mutually-exclusive pair
(auto-assign/explicit-list, auto-assign/pools, explicit-list/pools,
flavor/flavor-by-capacity, image/root-volume), or that targets `present`
without an image or root volume, or without a flavor or capacity query, makes
reconcile fail with a `SpecConflict` error with an empty call trace — before
any network call — leaving the cloud untouched. -/
theorem spec_conflict_fails_before_network (spec : ServerSpec) (cloud : CloudState)
    (h : (spec.auto_floating_ip.isSome = true ∧ spec.floating_ips.isSome = true) ∨
         (spec.auto_floating_ip.isSome = true ∧ spec.floating_ip_pools.isSome = true) ∨
         (spec.floating_ips.isSome = true ∧ spec.floating_ip_pools.isSome = true) ∨
         (spec.flavor.isSome = true ∧ spec.flavor_ram.isSome = true) ∨
         (spec.image.isSome = true ∧ spec.root_volume.isSome = true) ∨
         (spec.state = .present ∧ spec.image.isNone = true ∧ spec.root_volume.isNone = true) ∨
         (spec.state = .present ∧ spec.flavor.isNone = true ∧ spec.flavor_ram.isNone = true)) :
    ∃ m, reconcile spec cloud = (.failed (.SpecConflict m), cloud, []) := by
  cases hme : check_mutually_exclusive spec with
  | some e =>
    have he : ∃ m, e = .SpecConflict m := by
      unfold check_mutually_exclusive at hme
      split_ifs at hme <;> first
        | (injection hme with h2; exact ⟨_, h2.symm⟩)
        | cases hme
    obtain ⟨m, rfl⟩ := he
    refine ⟨m, ?_⟩
    unfold reconcile
    rw [hme]
  | none =>
    have hme' := hme
    unfold check_mutually_exclusive at hme'
    split_ifs at hme' with c1 c2 c3 c4 c5
    cases hrp : check_required_present spec with
    | some e =>
      have he : ∃ m, e = .SpecConflict m := by
        unfold check_required_present at hrp
        split_ifs at hrp <;> first
          | (injection hrp with h2; exact ⟨_, h2.symm⟩)
          | cases hrp
      obtain ⟨m, rfl⟩ := he
      refine ⟨m, ?_⟩
      unfold reconcile
      rw [hme, hrp]
    | none =>
      exfalso
      have hrp' := hrp
      unfold check_required_present at hrp'
      split_ifs at hrp' with d1 d2 d3
      · rcases h with ⟨ha, hb⟩ | ⟨ha, hb⟩ | ⟨ha, hb⟩ | ⟨ha, hb⟩ | ⟨ha, hb⟩ |
          ⟨ha, hb, hc⟩ | ⟨ha, hb, hc⟩ <;> simp_all
      · rcases h with ⟨ha, hb⟩ | ⟨ha, hb⟩ | ⟨ha, hb⟩ | ⟨ha, hb⟩ | ⟨ha, hb⟩ |
          ⟨ha, hb, hc⟩ | ⟨ha, hb, hc⟩ <;> simp_all

/-- C3: an instance observed in `ERROR` status with target state `present`
makes reconcile fail with `InstanceInErrorState`; the trace holds only the
lookup — zero create and zero delete calls. -/
theorem error_state_fails_no_create_delete (spec : ServerSpec) (cloud : CloudState)
    (server : Server)
    (hme : check_mutually_exclusive spec = none)
    (hrp : check_required_present spec = none)
    (hpres : spec.state = .present)
    (hfound : get_server cloud spec.name = some server)
    (herr : server.status = "ERROR") :
    reconcile spec cloud =
      (.failed (.InstanceInErrorState "ERROR"), cloud, [Call.getServer spec.name]) ∧
    (∀ nm i f nc, Call.createServer nm i f nc ∉ (reconcile spec cloud).2.2) ∧
    (∀ nm, Call.deleteServer nm ∉ (reconcile spec cloud).2.2) := by
  have hnc : ¬ ("ERROR" ∈ allowed_statuses) := by decide
  have heq : reconcile spec cloud =
      (.failed (.InstanceInErrorState "ERROR"), cloud, [Call.getServer spec.name]) := by
    unfold reconcile
    simp [hme, hrp, hpres, hfound, herr, hnc]
  refine ⟨heq, ?_, ?_⟩ <;> rw [heq] <;> simp

/-- C4 (amended): an instance observed in a transitional status (BUILDING or
any status outside ACTIVE/SHUTOFF/PAUSED/SUSPENDED) with target state
`present` makes reconcile fail immediately with the same non-active failure
as ERROR — it does not wait for a terminal status, and issues zero create and
zero delete calls. -/
theorem transitional_state_fails_immediately (spec : ServerSpec) (cloud : CloudState)
    (server : Server)
    (hme : check_mutually_exclusive spec = none)
    (hrp : check_required_present spec = none)
    (hpres : spec.state = .present)
    (hfound : get_server cloud spec.name = some server)
    (hstat : allowed_statuses.contains server.status = false) :
    reconcile spec cloud =
      (.failed (.InstanceInErrorState server.status), cloud, [Call.getServer spec.name]) ∧
    (∀ nm i f nc, Call.createServer nm i f nc ∉ (reconcile spec cloud).2.2) ∧
    (∀ nm, Call.deleteServer nm ∉ (reconcile spec cloud).2.2) := by
  have hnc : ¬ (server.status ∈ allowed_statuses) := by
    simpa using hstat
  have heq : reconcile spec cloud =
      (.failed (.InstanceInErrorState server.status), cloud, [Call.getServer spec.name]) := by
    unfold reconcile
    simp [hme, hrp, hpres, hfound, hnc]
  refine ⟨heq, ?_, ?_⟩ <;> rw [heq] <;> simp

/-- C6: a spec with target state `absent` whose named instance is not
observed exits with `changed=false` and result "not present"; no failure of
any kind (in particular no `NotFound`) is returned. -/
theorem absent_missing_unchanged (spec : ServerSpec) (cloud : CloudState)
    (hme : check_mutually_exclusive spec = none)
    (habs : spec.state = .absent)
    (hnf : get_server cloud spec.name = none) :
    reconcile spec cloud =
      (.exited false none (some "not present"), cloud, [Call.getServer spec.name]) ∧
    ∀ e, (reconcile spec cloud).1 ≠ .failed e := by
  have hrp : check_required_present spec = none := by
    unfold check_required_present
    rw [habs]
    simp
  have heq : reconcile spec cloud =
      (.exited false none (some "not present"), cloud, [Call.getServer spec.name]) := by
    unfold reconcile
    simp [hme, hrp, habs, hnf]
  refine ⟨heq, ?_⟩
  intro e
  rw [heq]
  simp

/-- C5 (amended): invoking reconcile twice in sequence with the same
present-state, wait=true spec and no external interference yields
`changed=false` on the second invocation (given that the first invocation
succeeds). -/
theorem reconcile_twice_unchanged (spec : ServerSpec) (cloud : CloudState)
    (hpres : spec.state = .present)
    (hw : spec.wait = true)
    (ch : Bool) (sv : Option Server) (res : Option String)
    (cloud' : CloudState) (calls : List Call)
    (h : reconcile spec cloud = (.exited ch sv res, cloud', calls)) :
    ∃ sv2, (reconcile spec cloud').1 = .exited false sv2 none :=
  reconcile_idempotent_core spec cloud hpres hw ch sv res cloud' calls h

/-- C7: under the auto-assign policy (no explicit list, no pools), a server
with zero floating addresses gets exactly one address from the provider's
default allocation path and `changed=true`; a server that already has one or
more floating addresses is left alone with `changed=false` and no attach or
detach calls. -/
theorem auto_assign_exactly_one (spec : ServerSpec) (cloud : CloudState)
    (server : Server) (a : String)
    (hauto : spec.autoIp = true)
    (hips : truthyList spec.floating_ips = false)
    (hpools : truthyList spec.floating_ip_pools = false)
    (hfip : cloud.auto_fip = some a) :
    (floatingOf server = [] →
      check_floating_ips spec cloud server =
        .ok (true, attachAddr server a, [Call.attachAuto server.id a])) ∧
    (floatingOf server ≠ [] →
      check_floating_ips spec cloud server = .ok (false, server, [])) := by
  constructor
  · intro hempty
    unfold floatingOf at hempty
    unfold check_floating_ips add_ips_to_server
    simp [hauto, hips, hpools, hempty, hfip]
  · intro hne
    refine check_noop_of_nonempty spec cloud server hips ?_
    rw [List.isEmpty_eq_false]
    exact hne

/-- C8: floating-IP convergence never touches fixed addresses — whatever the
policy, every fixed address of the refreshed server's address map (with its
network) equals that of the observed server. -/
theorem floating_convergence_preserves_fixed (spec : ServerSpec) (cloud : CloudState)
    (server : Server) (c : Bool) (s' : Server) (calls : List Call)
    (h : check_floating_ips spec cloud server = .ok (c, s', calls)) :
    fixedAddresses s'.addresses = fixedAddresses server.addresses :=
  check_fixed spec cloud server c s' calls h

/-- C9: image resolution applies the exclusion-substring filter and fails
with `NotFound` whenever zero or more than one image survives it; a success
returns the single survivor's id; and the boot request is only ever issued
with that resolved id (never with an unresolved image) when no root volume
is used. -/
theorem image_resolution_strict :
    (∀ images ref excl, (image_candidates images ref excl).length ≠ 1 →
      ∃ m, get_image_id images ref excl = .error (.NotFound m)) ∧
    (∀ images ref excl found, get_image_id images ref excl = .ok found →
      ∃ img, image_candidates images ref excl = [img] ∧ img.id = found) ∧
    (∀ spec cloud n iid fid nc, spec.root_volume = none →
      Call.createServer n iid fid nc ∈ (create_server spec cloud).2.2 →
      ∃ found, get_image_id cloud.images (spec.image.getD "") spec.image_exclude = .ok found ∧
        iid = some found) :=
  ⟨get_image_id_error_of_not_unique, get_image_id_ok_unique,
    fun spec cloud n iid fid nc => create_server_boot_image spec cloud n iid fid nc⟩

/-- C10: a `nics` entry carrying none of the recognized keys `net-id`,
`net-name`, `port-id`, `port-name` is silently omitted from the assembled
boot request (no failure), and the recognized entries appear in the output in
their original relative order (the output is an order-preserving filterMap of
the input). -/
theorem nics_unrecognized_skipped_order_kept (cloud : CloudState) :
    (∀ xs ys e, unrecognizedNic e = true →
      network_args cloud (xs ++ e :: ys) = network_args cloud (xs ++ ys)) ∧
    (∀ nics args calls, network_args cloud nics = .ok (args, calls) →
      args = nics.filterMap (resolve_nic cloud)) :=
  ⟨fun xs ys e he => network_args_skip cloud e he xs ys,
    fun nics args calls h => network_args_filterMap cloud nics args calls h⟩

/-! ## Concrete instances for witnesses -/

/-- A well-formed present-state spec: image `cirros`, flavor `m1.small`,
auto-assign floating-IP policy by default. -/
def baseSpec : ServerSpec :=
  { name := "vm1", image := some "cirros", image_exclude := "(deprecated)",
    flavor := some "m1.small", flavor_ram := none, flavor_include := none,
    key_name := none, security_groups := "default", nics := [],
    userdata := none, config_drive := false, auto_floating_ip := none,
    floating_ips := none, floating_ip_pools := none, root_volume := none,
    terminate_volume := false, wait := true, timeout := 180, state := .present }

/-- A small provider catalog with one image, one flavor, one network, one
port, one available floating IP and a default allocation source. -/
def baseCloud : CloudState :=
  { servers := [], images := [⟨"img-1", "cirros"⟩],
    flavors := [⟨"fl-1", "m1.small", 2048⟩],
    networks := [("netA", "net-1")], ports := [("portA", "port-1")],
    available_fips := ["10.0.0.3"], auto_fip := some "7.7.7.7",
    pools := [("pool1", ["8.8.8.8"])], next_id := "srv-new",
    next_fixed_ip := "192.168.1.5" }

/-- Conflicting spec: both `image` and `root_volume` set. -/
def specC1 : ServerSpec := { baseSpec with root_volume := some "vol-1" }

/-- Explicit floating-IP list spec: desired = [10.0.0.2, 10.0.0.3]. -/
def specC2 : ServerSpec := { baseSpec with floating_ips := some ["10.0.0.2", "10.0.0.3"] }

/-- Observed server with floating set [10.0.0.1, 10.0.0.2]. -/
def serverC2 : Server :=
  { id := "srv-2", name := "vm1", status := "ACTIVE",
    addresses := [("net", [⟨"192.168.1.4", "fixed"⟩, ⟨"10.0.0.1", "floating"⟩,
      ⟨"10.0.0.2", "floating"⟩])] }

/-- The server record after explicit-list convergence of `serverC2`. -/
def serverC2after : Server :=
  { id := "srv-2", name := "vm1", status := "ACTIVE",
    addresses := [("net", [⟨"192.168.1.4", "fixed"⟩, ⟨"10.0.0.2", "floating"⟩,
      ⟨"10.0.0.3", "floating"⟩])] }

/-- Provider state holding a server in ERROR status named `vm1`. -/
def cloudC3 : CloudState :=
  { baseCloud with
    servers := [{ id := "srv-e", name := "vm1", status := "ERROR", addresses := [] }] }

/-- Provider state holding a server in BUILDING status named `vm1`. -/
def cloudC4 : CloudState :=
  { baseCloud with
    servers := [{ id := "srv-b", name := "vm1", status := "BUILDING", addresses := [] }] }

/-- An already-converged ACTIVE server (one floating address). -/
def serverC5 : Server :=
  { id := "srv-5", name := "vm1", status := "ACTIVE",
    addresses := [("net", [⟨"192.168.1.4", "fixed"⟩, ⟨"7.7.7.7", "floating"⟩])] }

/-- Provider state holding the converged `serverC5`. -/
def cloudC5 : CloudState := { baseCloud with servers := [serverC5] }

/-- A present-state spec that does not wait for the instance to become
active. -/
def specC5nw : ServerSpec := { baseSpec with wait := false }

/-- The record a wait=false create leaves behind: still BUILDING, no
floating address yet. -/
def serverC5building : Server :=
  { id := "srv-new", name := "vm1", status := "BUILDING",
    addresses := [("private", [⟨"192.168.1.5", "fixed"⟩])] }

/-- Delete request for an instance that is not observed. -/
def specC6 : ServerSpec := { baseSpec with state := .absent }

/-- ACTIVE server with zero floating addresses. -/
def serverC7 : Server :=
  { id := "srv-7", name := "vm1", status := "ACTIVE",
    addresses := [("net", [⟨"192.168.1.4", "fixed"⟩])] }

/-- Two images sharing the name `ubuntu`: ambiguous resolution. -/
def imagesC9 : List Image := [⟨"i1", "ubuntu"⟩, ⟨"i2", "ubuntu"⟩]

/-- A `net-id` entry, an entry with no recognized key, and a `port-id`
entry. -/
def nicA : Nic := ⟨some "net-1", none, none, none⟩

/-- A nics entry carrying none of the recognized keys. -/
def nicBad : Nic := ⟨none, none, none, none⟩

/-- A `port-id` entry. -/
def nicB : Nic := ⟨none, none, some "port-9", none⟩

/-! ## Counterexample and witnesses -/

/-- C4 counterexample: an instance observed in BUILDING with target state
`present` does not make the reconciler wait for a terminal status before
branching — reconcile fails immediately with the non-active-state error and
the trace holds only the lookup. -/
theorem building_fails_not_waits :
    (reconcile baseSpec cloudC4).1 = .failed (.InstanceInErrorState "BUILDING") ∧
    (reconcile baseSpec cloudC4).2.2 = [Call.getServer "vm1"] :=
  ⟨rfl, rfl⟩

/-- C1 witness: both image and root volume set on a present-state spec. -/
theorem spec_conflict_witness :
    (specC1.image.isSome = true ∧ specC1.root_volume.isSome = true) ∧
    ∃ m, reconcile specC1 baseCloud = (.failed (.SpecConflict m), baseCloud, []) :=
  ⟨⟨rfl, rfl⟩, spec_conflict_fails_before_network specC1 baseCloud
    (Or.inr (Or.inr (Or.inr (Or.inr (Or.inl ⟨rfl, rfl⟩)))))⟩

/-- C2 witness: observed [10.0.0.1, 10.0.0.2], desired [10.0.0.2, 10.0.0.3]:
the reconciler attaches 10.0.0.3 then detaches 10.0.0.1 and the final
floating set equals the desired set. -/
theorem explicit_list_converges_witness :
    truthyList specC2.floating_ips = true ∧
    ((specC2.floating_ips.getD []).filter
        (fun ip => !((floatingOf serverC2).contains ip))).all
        (fun ip => baseCloud.available_fips.contains ip) = true ∧
    check_floating_ips specC2 baseCloud serverC2 =
      .ok (true, serverC2after,
        [Call.attachIp "srv-2" "10.0.0.3", Call.detachIp "srv-2" "10.0.0.1"]) := by
  refine ⟨by decide, by decide, ?_⟩
  have h := explicit_list_converges specC2 baseCloud serverC2 (by decide) (by decide)
  exact h.1.trans (by rfl)

/-- C3 witness: a server in ERROR with a valid present spec. -/
theorem error_state_witness :
    check_mutually_exclusive baseSpec = none ∧
    check_required_present baseSpec = none ∧
    baseSpec.state = .present ∧
    reconcile baseSpec cloudC3 =
      (.failed (.InstanceInErrorState "ERROR"), cloudC3, [Call.getServer baseSpec.name]) :=
  ⟨rfl, rfl, rfl,
    (error_state_fails_no_create_delete baseSpec cloudC3 _ rfl rfl rfl rfl rfl).1⟩

/-- C4 witness (amended claim): a BUILDING server fails immediately through
the same non-active path. -/
theorem transitional_fails_witness :
    allowed_statuses.contains "BUILDING" = false ∧
    reconcile baseSpec cloudC4 =
      (.failed (.InstanceInErrorState "BUILDING"), cloudC4, [Call.getServer baseSpec.name]) :=
  ⟨rfl,
    (transitional_state_fails_immediately baseSpec cloudC4 _ rfl rfl rfl rfl rfl).1⟩

/-- C5 counterexample: with wait=false the first invocation succeeds
(changed=true) while the created instance is still BUILDING, and the second
invocation on the resulting provider state fails on the transitional status
instead of reporting changed=false. -/
theorem wait_false_second_run_fails :
    (reconcile specC5nw baseCloud).1 = .exited true (some serverC5building) none ∧
    (reconcile specC5nw ((reconcile specC5nw baseCloud).2.1)).1 =
      .failed (.InstanceInErrorState "BUILDING") :=
  ⟨rfl, rfl⟩

/-- C5 witness: reconciling an already-converged present-state wait=true
record, then reconciling again on the resulting provider state, reports
changed=false. -/
theorem reconcile_twice_unchanged_witness :
    baseSpec.state = .present ∧
    baseSpec.wait = true ∧
    (∃ sv2, (reconcile baseSpec ((reconcile baseSpec cloudC5).2.1)).1 =
      .exited false sv2 none) :=
  ⟨rfl, rfl, reconcile_twice_unchanged baseSpec cloudC5 rfl rfl false (some serverC5) none
    ((reconcile baseSpec cloudC5).2.1) ((reconcile baseSpec cloudC5).2.2) rfl⟩

/-- C6 witness: deleting the absent `vm1` reports changed=false, result
"not present". -/
theorem absent_missing_witness :
    check_mutually_exclusive specC6 = none ∧
    specC6.state = .absent ∧
    get_server baseCloud specC6.name = none ∧
    reconcile specC6 baseCloud =
      (.exited false none (some "not present"), baseCloud, [Call.getServer specC6.name]) :=
  ⟨rfl, rfl, rfl, (absent_missing_unchanged specC6 baseCloud rfl rfl rfl).1⟩

/-- C7 witness: auto-assign on a server with zero floating addresses
attaches exactly one address from the default allocation path. -/
theorem auto_assign_witness :
    baseSpec.autoIp = true ∧
    floatingOf serverC7 = [] ∧
    check_floating_ips baseSpec baseCloud serverC7 =
      .ok (true, attachAddr serverC7 "7.7.7.7", [Call.attachAuto "srv-7" "7.7.7.7"]) :=
  ⟨rfl, by decide,
    (auto_assign_exactly_one baseSpec baseCloud serverC7 "7.7.7.7" rfl rfl rfl rfl).1
      (by decide)⟩

/-- C8 witness: the explicit-list convergence on `serverC2` leaves its fixed
address untouched. -/
theorem floating_frame_witness :
    check_floating_ips specC2 baseCloud serverC2 =
      .ok (true, serverC2after,
        [Call.attachIp "srv-2" "10.0.0.3", Call.detachIp "srv-2" "10.0.0.1"]) ∧
    fixedAddresses serverC2after.addresses = fixedAddresses serverC2.addresses :=
  ⟨by rfl,
    floating_convergence_preserves_fixed specC2 baseCloud serverC2 _ _ _ (by rfl)⟩

/-- C9 witness: ambiguous name resolution fails with NotFound; unique
resolution returns the survivor's id; the boot request carries the resolved
id. -/
theorem image_resolution_witness :
    ((image_candidates imagesC9 "ubuntu" "(deprecated)").length ≠ 1 ∧
      ∃ m, get_image_id imagesC9 "ubuntu" "(deprecated)" = .error (.NotFound m)) ∧
    (get_image_id baseCloud.images "cirros" "(deprecated)" = .ok "img-1" ∧
      ∃ img, image_candidates baseCloud.images "cirros" "(deprecated)" = [img] ∧
        img.id = "img-1") ∧
    (baseSpec.root_volume = none ∧
      Call.createServer "vm1" (some "img-1") "fl-1" [] ∈
        (create_server baseSpec baseCloud).2.2 ∧
      ∃ found, get_image_id baseCloud.images (baseSpec.image.getD "")
          baseSpec.image_exclude = .ok found ∧
        (some "img-1" : Option String) = some found) :=
  ⟨⟨by decide, image_resolution_strict.1 imagesC9 "ubuntu" "(deprecated)" (by decide)⟩,
   ⟨by rfl,
     image_resolution_strict.2.1 baseCloud.images "cirros" "(deprecated)" "img-1" (by rfl)⟩,
   rfl, by decide,
   image_resolution_strict.2.2 baseSpec baseCloud "vm1" (some "img-1") "fl-1" [] rfl
     (by decide)⟩

/-- C10 witness: an entry with no recognized key is dropped without failure
and the recognized entries keep their relative order. -/
theorem nics_skipped_witness :
    unrecognizedNic nicBad = true ∧
    network_args baseCloud [nicA, nicBad, nicB] = network_args baseCloud [nicA, nicB] ∧
    (network_args baseCloud [nicA, nicBad, nicB] = .ok ([nicA, nicB], []) ∧
      [nicA, nicB] = List.filterMap (resolve_nic baseCloud) [nicA, nicBad, nicB]) :=
  ⟨by decide,
    (nics_unrecognized_skipped_order_kept baseCloud).1 [nicA] [nicB] nicBad (by decide),
    by rfl,
    (nics_unrecognized_skipped_order_kept baseCloud).2 [nicA, nicBad, nicB] [nicA, nicB] []
      (by rfl)⟩

end OsServer
